import Mathlib

/-!
# Debounce / throttle playground: the event timeline of `src/src/App.jsx`

A shallow embedding of the `App` component: its React state, the helpers
`addLog`, `executeFunction`, `handleChange`, `handleReset`, the two input
handlers of the mode selector and the delay slider, the inspection hook
`window.getChartData`, and the relative-time projection of `chartData`.

Impure reads are explicit arguments.  Every call of `Date.now()`,
`new Date().toLocaleTimeString()` and `Math.random()` made by `addLog` is one
`Reading`; the reading of `now()` taken inside a lodash wrapper is an `Int`.
Timers are explicit too: a wrapper stores the earliest time at which its
pending `setTimeout` callback may run, and the callback running is an event
of its own (`debounceTimerFires`, `throttleTimerFires`) carrying the clock
reading it sees.

`debounce` and `throttle` are the functions of the `lodash` package imported
at `App.jsx:2`; their closure state and inner functions are embedded under
the names they have in lodash 4.17 (`debounce.js`, `throttle.js`).
-/

namespace Playground

/-! ## Data model -/

/-- One round of impure reads made by `addLog` (`App.jsx:35-38`): `now` is
`Date.now()`, `wall` is `new Date().toLocaleTimeString()`, `rnd` is the draw of
`Math.random()` (its numerator). -/
structure Reading where
  now : Int
  wall : String
  rnd : Nat
  deriving DecidableEq, Repr

/-- A log record `{ id, type, timestamp, rawTime }` (`App.jsx:41`).  The `id`
`now + Math.random()` is kept as the pair of its two summands. -/
structure LogEntry where
  id : Int × Nat
  type : String
  timestamp : String
  rawTime : Int
  deriving DecidableEq, Repr

/-- The three values of the mode selector (`App.jsx:219`). -/
inductive Mode where
  | none
  | debounce
  | throttle
  deriving DecidableEq, Repr

/-- The `options` object of lodash `debounce`; an absent key is `Option.none`. -/
structure Options where
  leading : Option Bool
  maxWait : Option Nat
  trailing : Option Bool
  deriving DecidableEq, Repr

/-- Closure state of one lodash `debounce` wrapper.  `lastArgs` records whether
`lastArgs` is defined (the handlers are called without arguments, and an empty
`arguments` object is truthy); `timerId` holds, for a pending `setTimeout`, the
earliest time at which its callback may run. -/
structure Debounced where
  wait : Nat
  leading : Bool
  maxing : Bool
  maxWait : Option Nat
  trailing : Bool
  lastArgs : Bool
  lastCallTime : Option Int
  lastInvokeTime : Int
  timerId : Option Int
  deriving DecidableEq, Repr

/-- The React state of `App` (`App.jsx:27-31`) together with the two memoised
lodash wrappers (`App.jsx:51-59`). -/
structure State where
  inputText : String
  mode : Mode
  delay : Nat
  logs : List LogEntry
  startTime : Option Int
  debouncedHandler : Debounced
  throttledHandler : Debounced
  deriving DecidableEq, Repr

/-! ## lodash `debounce` / `throttle` -/

/-- The call `setTimeout(f, delay)` made at time `time`: the callback may run
from `time + delay` on; a negative delay counts as zero. -/
def setTimeout (time : Int) (delay : Int) : Int :=
  time + max delay 0

/-- The call `debounce(func, wait, options)`: the initial closure state. -/
def debounce (wait : Nat) (options : Option Options) : Debounced :=
  match options with
  | Option.none =>
    { wait := wait, leading := false, maxing := false, maxWait := Option.none,
      trailing := true, lastArgs := false, lastCallTime := Option.none,
      lastInvokeTime := 0, timerId := Option.none }
  | some o =>
    { wait := wait,
      leading := o.leading.getD false,
      maxing := o.maxWait.isSome,
      maxWait := o.maxWait.map (fun m => max m wait),
      trailing := o.trailing.getD true,
      lastArgs := false, lastCallTime := Option.none,
      lastInvokeTime := 0, timerId := Option.none }

/-- The call `throttle(func, wait)`: a `debounce` with
`{ leading: true, maxWait: wait, trailing: true }`. -/
def throttle (wait : Nat) : Debounced :=
  debounce wait (some { leading := some true, maxWait := some wait, trailing := some true })

/-- The inner `invokeFunc(time)`; the flag says that `func` was called. -/
def invokeFunc (time : Int) (h : Debounced) : Debounced × Bool :=
  ({ h with lastArgs := false, lastInvokeTime := time }, true)

/-- The inner `leadingEdge(time)`. -/
def leadingEdge (time : Int) (h : Debounced) : Debounced × Bool :=
  let h1 := { h with lastInvokeTime := time, timerId := some (setTimeout time h.wait) }
  if h1.leading then invokeFunc time h1 else (h1, false)

/-- The inner `remainingWait(time)`.  With `lastCallTime` undefined the
JavaScript value is `NaN`, which `setTimeout` takes as `0`. -/
def remainingWait (time : Int) (h : Debounced) : Int :=
  match h.lastCallTime with
  | Option.none => 0
  | some c =>
    let timeSinceLastCall := time - c
    let timeSinceLastInvoke := time - h.lastInvokeTime
    let timeWaiting := (h.wait : Int) - timeSinceLastCall
    if h.maxing then
      match h.maxWait with
      | some m => min timeWaiting ((m : Int) - timeSinceLastInvoke)
      | Option.none => 0
    else timeWaiting

/-- The inner `shouldInvoke(time)`. -/
def shouldInvoke (time : Int) (h : Debounced) : Bool :=
  match h.lastCallTime with
  | Option.none => true
  | some c =>
    decide ((h.wait : Int) ≤ time - c) || decide (time - c < 0) ||
      (h.maxing &&
        match h.maxWait with
        | some m => decide ((m : Int) ≤ time - h.lastInvokeTime)
        | Option.none => false)

/-- The inner `trailingEdge(time)`. -/
def trailingEdge (time : Int) (h : Debounced) : Debounced × Bool :=
  let h1 := { h with timerId := Option.none }
  if h1.trailing && h1.lastArgs then invokeFunc time h1
  else ({ h1 with lastArgs := false }, false)

/-- The inner `timerExpired()`, `time` being its reading of `now()`. -/
def timerExpired (time : Int) (h : Debounced) : Debounced × Bool :=
  if shouldInvoke time h then trailingEdge time h
  else ({ h with timerId := some (setTimeout time (remainingWait time h)) }, false)

/-- The method `cancel()`. -/
def cancel (h : Debounced) : Debounced :=
  { h with lastInvokeTime := 0, lastArgs := false, lastCallTime := Option.none,
           timerId := Option.none }

/-- The wrapper itself, `debounced()`, `time` being its reading of `now()`. -/
def debounced (time : Int) (h : Debounced) : Debounced × Bool :=
  let isInvoking := shouldInvoke time h
  let h1 := { h with lastArgs := true, lastCallTime := some time }
  if isInvoking then
    if h1.timerId = Option.none then leadingEdge time h1
    else if h1.maxing then
      invokeFunc time { h1 with timerId := some (setTimeout time h1.wait) }
    else (h1, false)
  else if h1.timerId = Option.none then
    ({ h1 with timerId := some (setTimeout time h1.wait) }, false)
  else (h1, false)

/-! ## The component -/

/-- The JavaScript expression `prev || now` on a nullable number: `null` and
`0` are falsy. -/
def orNow (prev : Option Int) (now : Int) : Int :=
  match prev with
  | some p => if p = 0 then now else p
  | Option.none => now

/-- The state right after mounting (`App.jsx:27-31`, `51-59`). -/
def init : State :=
  { inputText := "", mode := Mode.none, delay := 1000, logs := [],
    startTime := Option.none,
    debouncedHandler := debounce 1000 Option.none,
    throttledHandler := throttle 1000 }

/-- The helper `addLog(type)` (`App.jsx:34-44`). -/
def addLog (type : String) (r : Reading) (s : State) : State :=
  { s with
    startTime := some (orNow s.startTime r.now),
    logs := { id := (r.now, r.rnd), type := type, timestamp := r.wall,
              rawTime := r.now } :: s.logs }

/-- The helper `executeFunction()` (`App.jsx:46-48`). -/
def executeFunction (r : Reading) (s : State) : State :=
  addLog "Executed" r s

/-- The handler `handleChange(e)` (`App.jsx:68-80`): `val` is `e.target.value`,
`r` the reading of the `addLog('Raw Input')` call, `tCall` the reading of `now()`
inside the lodash wrapper, `rExec` the reading of the `addLog('Executed')` call
when one is made. -/
def handleChange (val : String) (r : Reading) (tCall : Int) (rExec : Reading)
    (s : State) : State :=
  let s1 := addLog "Raw Input" r { s with inputText := val }
  match s1.mode with
  | Mode.none => executeFunction rExec s1
  | Mode.debounce =>
    let p := debounced tCall s1.debouncedHandler
    let s2 := { s1 with debouncedHandler := p.1 }
    if p.2 then executeFunction rExec s2 else s2
  | Mode.throttle =>
    let p := debounced tCall s1.throttledHandler
    let s2 := { s1 with throttledHandler := p.1 }
    if p.2 then executeFunction rExec s2 else s2

/-- The call `setDelay(d)` followed by the re-render: when the value changes,
both `useMemo` hooks (`App.jsx:51-59`) build new wrappers and the effect
cleanup (`App.jsx:61-66`) cancels the old ones, which are then unreachable;
when it does not change React keeps the current render. -/
def setDelay (d : Nat) (s : State) : State :=
  if d = s.delay then s
  else { s with delay := d, debouncedHandler := debounce d Option.none,
                throttledHandler := throttle d }

/-- The `onChange` of the delay slider (`App.jsx:267`). -/
def delayOnChange (d : Nat) (s : State) : State :=
  setDelay d s

/-- The `onChange` of a mode radio button (`App.jsx:234-238`). -/
def modeOnChange (m : Mode) (s : State) : State :=
  { s with mode := m, debouncedHandler := cancel s.debouncedHandler,
           throttledHandler := cancel s.throttledHandler }

/-- The handler `handleReset()` (`App.jsx:82-90`). -/
def handleReset (s : State) : State :=
  setDelay 1000
    { s with inputText := "", mode := Mode.none, logs := [],
             startTime := Option.none,
             debouncedHandler := cancel s.debouncedHandler,
             throttledHandler := cancel s.throttledHandler }

/-- The pending timer of `debouncedHandler` running its callback at clock
reading `t`; `rExec` is the reading of the `addLog('Executed')` call when the
callback makes one.  Nothing happens when no timer is pending or when the
timer is not due yet. -/
def debounceTimerFires (t : Int) (rExec : Reading) (s : State) : State :=
  match s.debouncedHandler.timerId with
  | Option.none => s
  | some due =>
    if due ≤ t then
      let p := timerExpired t s.debouncedHandler
      let s1 := { s with debouncedHandler := p.1 }
      if p.2 then executeFunction rExec s1 else s1
    else s

/-- The pending timer of `throttledHandler` running its callback, as
`debounceTimerFires`. -/
def throttleTimerFires (t : Int) (rExec : Reading) (s : State) : State :=
  match s.throttledHandler.timerId with
  | Option.none => s
  | some due =>
    if due ≤ t then
      let p := timerExpired t s.throttledHandler
      let s1 := { s with throttledHandler := p.1 }
      if p.2 then executeFunction rExec s1 else s1
    else s

/-- One event delivered to the component. -/
inductive Action where
  | input (val : String) (r : Reading) (tCall : Int) (rExec : Reading)
  | debounceTimer (t : Int) (rExec : Reading)
  | throttleTimer (t : Int) (rExec : Reading)
  | selectMode (m : Mode)
  | slideDelay (d : Nat)
  | reset
  deriving DecidableEq, Repr

/-- The effect of one event. -/
def step (s : State) (a : Action) : State :=
  match a with
  | Action.input val r tCall rExec => handleChange val r tCall rExec s
  | Action.debounceTimer t rExec => debounceTimerFires t rExec s
  | Action.throttleTimer t rExec => throttleTimerFires t rExec s
  | Action.selectMode m => modeOnChange m s
  | Action.slideDelay d => delayOnChange d s
  | Action.reset => handleReset s

/-- The effect of a sequence of events, oldest first. -/
def run (s : State) (as : List Action) : State :=
  as.foldl step s

/-- A reading at time `t` (display string and random draw left blank). -/
def at_ (t : Int) : Reading :=
  { now := t, wall := "", rnd := 0 }

/-- The number of log entries of type `ty`. -/
def countType (ty : String) (logs : List LogEntry) : Nat :=
  (logs.filter (fun l => l.type = ty)).length

/-- The log record written by `addLog(type)` under reading `r`. -/
def entry (type : String) (r : Reading) : LogEntry :=
  { id := (r.now, r.rnd), type := type, timestamp := r.wall, rawTime := r.now }

/-! ## Inspection hook and projection -/

/-- A point `{ time, value }` of the inspection snapshot. -/
structure ChartPoint where
  time : Int
  value : String
  deriving DecidableEq, Repr

/-- The object `{ rawEvents, executedEvents }`. -/
structure ChartData where
  rawEvents : List ChartPoint
  executedEvents : List ChartPoint
  deriving DecidableEq, Repr

/-- The function installed as `window.getChartData` (`App.jsx:94-102`), as a
function of the `logs` it closes over. -/
def getChartData (logs : List LogEntry) : ChartData :=
  { rawEvents :=
      (logs.filter (fun l => l.type = "Raw Input")).map
        (fun l => { time := l.rawTime, value := "Raw Input" }),
    executedEvents :=
      (logs.filter (fun l => l.type = "Executed")).map
        (fun l => { time := l.rawTime, value := "Executed" }) }

/-- The points of kind `kind` in the words of the specification: one
`(epoch, kind)` pair for each event of that kind, in log order. -/
def snapshotOf (kind : String) : List LogEntry → List ChartPoint
  | [] => []
  | l :: ls =>
    if l.type = kind then { time := l.rawTime, value := kind } :: snapshotOf kind ls
    else snapshotOf kind ls

/-- The numerator `l.rawTime - (startTime || l.rawTime)` of the chart
coordinate (`App.jsx:107`, `112`, `123`), in milliseconds.  The coordinate is
this number divided by `1000` and printed by `toFixed(1)`; those two
floating-point steps are not part of the embedding. -/
def relativeMs (startTime : Option Int) (l : LogEntry) : Int :=
  l.rawTime - orNow startTime l.rawTime

/-- The numerators of `chartData.labels` (`App.jsx:107`), in log order. -/
def labelsMs (s : State) : List Int :=
  s.logs.map (relativeMs s.startTime)

/-- The numerators of the `x` coordinates of the dataset of kind `kind`
(`App.jsx:111-114`, `122-125`), in log order. -/
def datasetMs (kind : String) (s : State) : List Int :=
  (s.logs.filter (fun l => l.type = kind)).map (relativeMs s.startTime)

/-! ## Traces -/

/-- Whether an event is a timer callback. -/
def Action.isTimer : Action → Bool
  | Action.debounceTimer _ _ => true
  | Action.throttleTimer _ _ => true
  | _ => false

/-- The configuration lodash gives the wrapper `throttle(func, d)`. -/
def IsThrottle (h : Debounced) (d : Nat) : Prop :=
  h.wait = d ∧ h.leading = true ∧ h.maxing = true ∧ h.maxWait = some d ∧ h.trailing = true

/-- The configuration lodash gives the wrapper `debounce(func, d)`. -/
def IsDebounce (h : Debounced) (d : Nat) : Prop :=
  h.wait = d ∧ h.leading = false ∧ h.maxing = false ∧ h.trailing = true

instance (h : Debounced) (d : Nat) : Decidable (IsThrottle h d) := by
  unfold IsThrottle; infer_instance

instance (h : Debounced) (d : Nat) : Decidable (IsDebounce h d) := by
  unfold IsDebounce; infer_instance

/-- One keystroke of a trace: the typed value and the three clock readings
`handleChange` may take. -/
structure Keystroke where
  val : String
  r : Reading
  tCall : Int
  rExec : Reading
  deriving DecidableEq, Repr

/-- The event of a keystroke. -/
def Keystroke.toAction (k : Keystroke) : Action :=
  Action.input k.val k.r k.tCall k.rExec

/-- The log that a run of keystrokes leaves in Immediate mode, newest first:
for each keystroke its `Executed` record directly above its `Raw Input`
record. -/
def immediateLog : List Keystroke → List LogEntry
  | [] => []
  | k :: ks => immediateLog ks ++ [entry "Executed" k.rExec, entry "Raw Input" k.r]

/-- What a debounce burst has reached so far: the `rawTime` of its last
`Raw Input`, the `now()` reading of its last wrapper call, the last clock
reading seen, and its `Raw Input` records, newest first. -/
structure Burst where
  lastRaw : Option Int
  lastCall : Option Int
  clock : Int
  raws : List LogEntry
  deriving DecidableEq, Repr

/-- A burst before its first event, the clock standing at `c0`. -/
def Burst.start (c0 : Int) : Burst :=
  { lastRaw := Option.none, lastCall := Option.none, clock := c0, raws := [] }

/-- Extending a burst of delay `delay` by one event.  A keystroke must not read
an earlier clock than the event before it and must come less than `delay`
after the previous keystroke; a callback of the debounce timer may come at
any time the clock allows.  Other events end the burst (`Option.none`). -/
def Burst.next (delay : Nat) (b : Burst) : Action → Option Burst
  | Action.input _ r tCall _ =>
    if b.clock ≤ r.now ∧ r.now ≤ tCall ∧ (∀ l ∈ b.lastRaw, r.now - l < (delay : Int)) then
      some { lastRaw := some r.now, lastCall := some tCall, clock := tCall,
             raws := entry "Raw Input" r :: b.raws }
    else Option.none
  | Action.debounceTimer t rExec =>
    if b.clock ≤ t ∧ t ≤ rExec.now then some { b with clock := t } else Option.none
  | _ => Option.none

/-- Extending a burst by a sequence of events. -/
def Burst.scan (delay : Nat) (b : Burst) : List Action → Option Burst
  | [] => some b
  | a :: as =>
    match Burst.next delay b a with
    | some b1 => Burst.scan delay b1 as
    | Option.none => Option.none

/-- What holds of the state `s` that a burst `b` has led to from the state
`s0`: the component is still in mode `debounce` with the wrapper of the
delay of `s0`, and either no keystroke has come yet, or the last call is
recorded and its timer is pending, due no later than `delay` after it, with no
`Executed` record added, or the timer has run `func`, once, `delay` or more
after the last call. -/
def BurstInv (s0 s : State) (b : Burst) : Prop :=
  s.mode = Mode.debounce ∧ s.delay = s0.delay ∧ IsDebounce s.debouncedHandler s0.delay ∧
  ((b.lastRaw = Option.none ∧ b.lastCall = Option.none ∧ b.raws = [] ∧
      s.debouncedHandler.timerId = Option.none ∧ s.logs = s0.logs) ∨
    (∃ lr lc due, b.lastRaw = some lr ∧ b.lastCall = some lc ∧ lr ≤ lc ∧ lc ≤ b.clock ∧
      s.debouncedHandler.lastCallTime = some lc ∧ s.debouncedHandler.lastArgs = true ∧
      s.debouncedHandler.timerId = some due ∧ due ≤ lc + (s0.delay : Int) ∧
      s.logs = b.raws ++ s0.logs) ∨
    (∃ lr lc e, b.lastRaw = some lr ∧ b.lastCall = some lc ∧ lr ≤ lc ∧
      lc + (s0.delay : Int) ≤ b.clock ∧ s.debouncedHandler.timerId = Option.none ∧
      e.type = "Executed" ∧ lc + (s0.delay : Int) ≤ e.rawTime ∧
      s.logs = e :: b.raws ++ s0.logs))

/-- The event of the debounce timer's callback running at `p.1` with
reading `p.2`. -/
def debounceTimerAt (p : Int × Reading) : Action :=
  Action.debounceTimer p.1 p.2

/-- The number of keystrokes among the events. -/
def keystrokes (tr : List Action) : Nat :=
  (tr.filter (fun a => !a.isTimer)).length

/-- The cleanup of the effect at `App.jsx:61-66`, run on the wrappers of the
render that is being replaced: both are cancelled. -/
def effectCleanup (s : State) : Debounced × Debounced :=
  (cancel s.debouncedHandler, cancel s.throttledHandler)

/-- A sequence of `addLog` calls, oldest first, each with its type and reading. -/
def addLogs (s : State) (evs : List (String × Reading)) : State :=
  evs.foldl (fun st e => addLog e.1 e.2 st) s

/-- A state whose log is `logs` and whose start time is `startTime`, the other
fields as after mounting. -/
def withTimeline (startTime : Option Int) (logs : List LogEntry) : State :=
  { init with startTime := startTime, logs := logs }

/-- What holds of the wrappers in every state the component reaches: each is
the wrapper lodash builds for the current delay, and a wrapper has a timer
pending only in its own mode. -/
def WellFormed (s : State) : Prop :=
  IsDebounce s.debouncedHandler s.delay ∧ IsThrottle s.throttledHandler s.delay ∧
  (s.mode ≠ Mode.debounce → s.debouncedHandler.timerId = Option.none) ∧
  (s.mode ≠ Mode.throttle → s.throttledHandler.timerId = Option.none)

/-- Whether an event is a keystroke or a timer callback, that is, neither a
mode change nor a delay change nor a reset. -/
def Action.isInputOrTimer : Action → Bool
  | Action.input _ _ _ _ => true
  | Action.debounceTimer _ _ => true
  | Action.throttleTimer _ _ => true
  | _ => false

/-- A call of the throttle wrapper is queued: the component is in mode
`throttle` with delay `d`, the wrapper holds the arguments of a call that has
not been run (`lastArgs`), its last invocation was at `L`, and its timer is
pending. -/
def Queued (d : Nat) (L : Int) (s : State) : Prop :=
  s.mode = Mode.throttle ∧ s.delay = d ∧ WellFormed s ∧
  s.throttledHandler.lastArgs = true ∧ s.throttledHandler.lastInvokeTime = L ∧
  ∃ due, s.throttledHandler.timerId = some due

/-! ## Scenarios -/

/-- The mounted component set to delay `500` and mode `debounce`. -/
def debounce500 : State :=
  run init [Action.slideDelay 500, Action.selectMode Mode.debounce]

/-- The mounted component set to delay `500` and mode `throttle`. -/
def throttle500 : State :=
  run init [Action.slideDelay 500, Action.selectMode Mode.throttle]

/-- A keystroke all of whose clock readings are `t`. -/
def keyAt (t : Int) : Action :=
  Action.input "x" (at_ t) t (at_ t)

/-- The burst of the specification's scenario: keystrokes at `t = 0, 100, 200`,
and the timer armed by the first of them running at `t = 500`. -/
def burst3 : List Action :=
  [keyAt 0, keyAt 100, keyAt 200, Action.debounceTimer 500 (at_ 500)]

/-- What `burst3` has reached at its end. -/
def burst3End : Burst :=
  { lastRaw := some 200, lastCall := some 200, clock := 500,
    raws := [entry "Raw Input" (at_ 200), entry "Raw Input" (at_ 100),
             entry "Raw Input" (at_ 0)] }

/-- The kind and epoch of each record, newest first. -/
def timeline (s : State) : List (String × Int) :=
  s.logs.map (fun l => (l.type, l.rawTime))

end Playground

/-! ## Basic facts about the helpers -/

namespace Playground

theorem addLog_logs (ty : String) (r : Reading) (s : State) :
    (addLog ty r s).logs = entry ty r :: s.logs := rfl

theorem addLog_startTime (ty : String) (r : Reading) (s : State) :
    (addLog ty r s).startTime = some (orNow s.startTime r.now) := rfl

theorem addLog_mode (ty : String) (r : Reading) (s : State) :
    (addLog ty r s).mode = s.mode := rfl

theorem addLog_delay (ty : String) (r : Reading) (s : State) :
    (addLog ty r s).delay = s.delay := rfl

theorem addLog_debouncedHandler (ty : String) (r : Reading) (s : State) :
    (addLog ty r s).debouncedHandler = s.debouncedHandler := rfl

theorem addLog_throttledHandler (ty : String) (r : Reading) (s : State) :
    (addLog ty r s).throttledHandler = s.throttledHandler := rfl

theorem run_nil (s : State) : run s [] = s := rfl

theorem run_cons (s : State) (a : Action) (as : List Action) :
    run s (a :: as) = run (step s a) as := rfl

theorem run_append (s : State) (as bs : List Action) :
    run s (as ++ bs) = run (run s as) bs := by
  simp [run, List.foldl_append]

theorem countType_cons (ty : String) (l : LogEntry) (ls : List LogEntry) :
    countType ty (l :: ls) = (if l.type = ty then 1 else 0) + countType ty ls := by
  unfold countType
  by_cases h : l.type = ty <;> simp [List.filter_cons, h, Nat.add_comm]

theorem cancel_timerId (h : Debounced) : (cancel h).timerId = Option.none := rfl

theorem cancel_cancel (h : Debounced) : cancel (cancel h) = cancel h := rfl

theorem debounceTimerFires_idle (t : Int) (rExec : Reading) (s : State)
    (h : s.debouncedHandler.timerId = Option.none) :
    debounceTimerFires t rExec s = s := by
  simp [debounceTimerFires, h]

theorem throttleTimerFires_idle (t : Int) (rExec : Reading) (s : State)
    (h : s.throttledHandler.timerId = Option.none) :
    throttleTimerFires t rExec s = s := by
  simp [throttleTimerFires, h]

/-- With no timer pending in either wrapper, timer callbacks change nothing. -/
theorem run_timers_idle (tr : List Action) (s : State)
    (hd : s.debouncedHandler.timerId = Option.none)
    (ht : s.throttledHandler.timerId = Option.none)
    (htr : ∀ a ∈ tr, a.isTimer = true) : run s tr = s := by
  induction tr with
  | nil => rfl
  | cons a as ih =>
    have ha : a.isTimer = true := htr a (List.mem_cons_self a as)
    have has : ∀ b ∈ as, b.isTimer = true := fun b hb => htr b (List.mem_cons_of_mem a hb)
    have hstep : step s a = s := by
      cases a with
      | debounceTimer t rE => exact debounceTimerFires_idle t rE s hd
      | throttleTimer t rE => exact throttleTimerFires_idle t rE s ht
      | input v r tc rE => simp [Action.isTimer] at ha
      | selectMode m => simp [Action.isTimer] at ha
      | slideDelay d => simp [Action.isTimer] at ha
      | reset => simp [Action.isTimer] at ha
    rw [run_cons, hstep]
    exact ih has

/-! ## C5: the raw input is always recorded -/

/-- C5: in every state and every mode, `handleChange` puts exactly one new
`Raw Input` record on the log, directly above the records that were already
there, which stay as they were; the only other record it may add is one
`Executed` record above it.  So the number of `Raw Input` records grows by
exactly one, whether the effect runs, is delayed or is suppressed. -/
theorem handleChange_records_raw_input (s : State) (val : String) (r : Reading)
    (tCall : Int) (rExec : Reading) :
    ((handleChange val r tCall rExec s).logs = entry "Raw Input" r :: s.logs ∨
      (handleChange val r tCall rExec s).logs
        = entry "Executed" rExec :: entry "Raw Input" r :: s.logs) ∧
    countType "Raw Input" (handleChange val r tCall rExec s).logs
      = countType "Raw Input" s.logs + 1 := by
  have key : (handleChange val r tCall rExec s).logs = entry "Raw Input" r :: s.logs ∨
      (handleChange val r tCall rExec s).logs
        = entry "Executed" rExec :: entry "Raw Input" r :: s.logs := by
    unfold handleChange
    simp only [addLog_mode]
    cases s.mode with
    | none => right; rfl
    | debounce =>
      simp only
      split
      · right; rfl
      · left; rfl
    | throttle =>
      simp only
      split
      · right; rfl
      · left; rfl
  refine ⟨key, ?_⟩
  rcases key with h | h <;> rw [h] <;> simp [countType_cons, entry] <;> omega

end Playground

namespace Playground

/-! ## C8: the inspection hook -/

theorem snapshotOf_eq (kind : String) (logs : List LogEntry) :
    snapshotOf kind logs
      = (logs.filter (fun l => l.type = kind)).map
          (fun l => { time := l.rawTime, value := kind }) := by
  induction logs with
  | nil => rfl
  | cons l ls ih =>
    by_cases h : l.type = kind <;> simp [snapshotOf, List.filter_cons, h, ih]

/-- C8: for every log, `window.getChartData` returns as `rawEvents` one point
`{ time: rawTime, value: 'Raw Input' }` for each `Raw Input` record and for no
other record, in log order, and as `executedEvents` the same for the
`Executed` records; the two lists have as many points as the log has records
of the kind.  The snapshot is a value computed from the log: the log it was
taken from is not an output of the function. -/
theorem getChartData_snapshot (logs : List LogEntry) :
    getChartData logs
      = { rawEvents := snapshotOf "Raw Input" logs,
          executedEvents := snapshotOf "Executed" logs } ∧
    (getChartData logs).rawEvents.map (fun p => p.time)
      = (logs.filter (fun l => l.type = "Raw Input")).map (fun l => l.rawTime) ∧
    (getChartData logs).executedEvents.map (fun p => p.time)
      = (logs.filter (fun l => l.type = "Executed")).map (fun l => l.rawTime) ∧
    (∀ p ∈ (getChartData logs).rawEvents, p.value = "Raw Input") ∧
    (∀ p ∈ (getChartData logs).executedEvents, p.value = "Executed") ∧
    (getChartData logs).rawEvents.length = countType "Raw Input" logs ∧
    (getChartData logs).executedEvents.length = countType "Executed" logs := by
  refine ⟨?_, ?_, ?_, ?_, ?_, ?_, ?_⟩
  · simp [getChartData, snapshotOf_eq]
  · simp [getChartData, List.map_map, Function.comp_def]
  · simp [getChartData, List.map_map, Function.comp_def]
  · intro p hp
    simp only [getChartData, List.mem_map] at hp
    obtain ⟨l, _, rfl⟩ := hp
    rfl
  · intro p hp
    simp only [getChartData, List.mem_map] at hp
    obtain ⟨l, _, rfl⟩ := hp
    rfl
  · simp [getChartData, countType]
  · simp [getChartData, countType]

/-! ## C9: reset -/

theorem debounce_cancel (d : Nat) : cancel (debounce d Option.none) = debounce d Option.none := rfl

theorem throttle_cancel (d : Nat) : cancel (throttle d) = throttle d := rfl

/-- C9: `handleReset` is idempotent: in every state a second reset right after
a first one changes nothing, and the state after a reset has an empty input
field, an empty log, no start time, mode `none` and delay `1000`. -/
theorem handleReset_idempotent (s : State) :
    handleReset (handleReset s) = handleReset s ∧
    (handleReset s).logs = [] ∧
    (handleReset s).startTime = Option.none ∧
    (handleReset s).mode = Mode.none ∧
    (handleReset s).delay = 1000 ∧
    (handleReset s).inputText = "" := by
  by_cases h : s.delay = 1000
  · simp [handleReset, setDelay, h, cancel]
  · have h2 : ¬ (1000 = s.delay) := fun e => h e.symm
    simp [handleReset, setDelay, h2, cancel, debounce, throttle]

/-! ## C3: cancelled timers -/

theorem modeOnChange_idle (m : Mode) (s : State) :
    (modeOnChange m s).debouncedHandler.timerId = Option.none ∧
    (modeOnChange m s).throttledHandler.timerId = Option.none :=
  ⟨rfl, rfl⟩

theorem delayOnChange_idle (d : Nat) (s : State) (hd : d ≠ s.delay) :
    (delayOnChange d s).debouncedHandler.timerId = Option.none ∧
    (delayOnChange d s).throttledHandler.timerId = Option.none := by
  simp [delayOnChange, setDelay, hd, debounce, throttle]

theorem handleReset_idle (s : State) :
    (handleReset s).debouncedHandler.timerId = Option.none ∧
    (handleReset s).throttledHandler.timerId = Option.none := by
  by_cases h : s.delay = 1000
  · simp [handleReset, setDelay, h, cancel]
  · have h2 : ¬ (1000 = s.delay) := fun e => h e.symm
    simp [handleReset, setDelay, h2, debounce, throttle]

/-- C3: whatever timers are pending in a state, after the mode selector's
`onChange`, after the delay slider's `onChange` with a new value, and after
`handleReset`, neither wrapper has a pending timer (after a delay change the
wrappers are new ones, and the effect cleanup leaves the replaced ones without
a timer too), and any sequence of timer callbacks delivered from there leaves
the whole state, the log included, as it is: no `Executed` record comes from a
timer that was pending before. -/
theorem cancelled_timers_never_fire (s : State) (m : Mode) (d : Nat) (tr : List Action)
    (hd : d ≠ s.delay) (htr : ∀ a ∈ tr, a.isTimer = true) :
    ((modeOnChange m s).debouncedHandler.timerId = Option.none ∧
      (modeOnChange m s).throttledHandler.timerId = Option.none ∧
      run (modeOnChange m s) tr = modeOnChange m s ∧
      (run (modeOnChange m s) tr).logs = s.logs) ∧
    ((delayOnChange d s).debouncedHandler.timerId = Option.none ∧
      (delayOnChange d s).throttledHandler.timerId = Option.none ∧
      (effectCleanup s).1.timerId = Option.none ∧
      (effectCleanup s).2.timerId = Option.none ∧
      run (delayOnChange d s) tr = delayOnChange d s ∧
      (run (delayOnChange d s) tr).logs = s.logs) ∧
    ((handleReset s).debouncedHandler.timerId = Option.none ∧
      (handleReset s).throttledHandler.timerId = Option.none ∧
      run (handleReset s) tr = handleReset s ∧
      (run (handleReset s) tr).logs = []) := by
  have h1 := modeOnChange_idle m s
  have h2 := delayOnChange_idle d s hd
  have h3 := handleReset_idle s
  have r1 := run_timers_idle tr _ h1.1 h1.2 htr
  have r2 := run_timers_idle tr _ h2.1 h2.2 htr
  have r3 := run_timers_idle tr _ h3.1 h3.2 htr
  refine ⟨⟨h1.1, h1.2, r1, ?_⟩, ⟨h2.1, h2.2, rfl, rfl, r2, ?_⟩, ⟨h3.1, h3.2, r3, ?_⟩⟩
  · rw [r1]; rfl
  · rw [r2]; simp [delayOnChange, setDelay, hd]
  · rw [r3]
    by_cases h : s.delay = 1000
    · simp [handleReset, setDelay, h]
    · have h2 : ¬ (1000 = s.delay) := fun e => h e.symm
      simp [handleReset, setDelay, h2]

/-- C3, the scenario of the specification: delay 500, mode `debounce`, a
keystroke at `t = 0`, the mode switched to `none` at `t = 100`; the timer
callback at `t = 500` adds no record. -/
theorem cancelled_timers_never_fire_witness :
    (700 ≠ (run init [Action.slideDelay 500, Action.selectMode Mode.debounce,
        Action.input "a" (at_ 0) 0 (at_ 0)]).delay ∧
      ∀ a ∈ [Action.debounceTimer 500 (at_ 500), Action.throttleTimer 500 (at_ 500)],
        a.isTimer = true) ∧
    (run init [Action.slideDelay 500, Action.selectMode Mode.debounce,
        Action.input "a" (at_ 0) 0 (at_ 0)]).debouncedHandler.timerId = some 500 ∧
    (run (modeOnChange Mode.none
        (run init [Action.slideDelay 500, Action.selectMode Mode.debounce,
          Action.input "a" (at_ 0) 0 (at_ 0)]))
        [Action.debounceTimer 500 (at_ 500), Action.throttleTimer 500 (at_ 500)]).logs
      = [entry "Raw Input" (at_ 0)] :=
  ⟨⟨by decide, by decide⟩, by decide,
    (cancelled_timers_never_fire
      (run init [Action.slideDelay 500, Action.selectMode Mode.debounce,
        Action.input "a" (at_ 0) 0 (at_ 0)])
      Mode.none 700
      [Action.debounceTimer 500 (at_ 500), Action.throttleTimer 500 (at_ 500)]
      (by decide) (by decide)).1.2.2.2.trans (by decide)⟩

end Playground

namespace Playground

/-! ## C4: Immediate mode -/

theorem handleChange_none (s : State) (val : String) (r : Reading) (tCall : Int)
    (rExec : Reading) (h : s.mode = Mode.none) :
    handleChange val r tCall rExec s
      = executeFunction rExec (addLog "Raw Input" r { s with inputText := val }) := by
  simp [handleChange, addLog_mode, h]

/-- C4 as stated fails: in Immediate mode the two records of one keystroke are
stamped by two calls of `Date.now()`; when the clock ticks between them (here
`1000` and `1001`) the `Executed` record's `rawTime` is not the `Raw Input`
record's. -/
theorem immediate_rawTime_can_differ :
    init.mode = Mode.none ∧
    timeline (handleChange "a" (at_ 1000) 1000 (at_ 1001) init)
      = [("Executed", 1001), ("Raw Input", 1000)] ∧
    ¬ ((entry "Executed" (at_ 1001)).rawTime = (entry "Raw Input" (at_ 1000)).rawTime) := by
  decide

/-- C4, amended: in mode `none` every run of keystrokes leaves, above the old
log, one `Executed` record per `Raw Input` record, each directly above the
`Raw Input` record of its keystroke and below the next keystroke's; the
`Executed` record carries the clock reading of its own `addLog` call, which is
the `Raw Input` record's `rawTime` when the two readings agree and is not
smaller when the clock did not go back between them. -/
theorem immediate_one_executed_per_input (s : State) (ks : List Keystroke)
    (h : s.mode = Mode.none) :
    (run s (ks.map Keystroke.toAction)).logs = immediateLog ks ++ s.logs ∧
    countType "Raw Input" (immediateLog ks) = ks.length ∧
    countType "Executed" (immediateLog ks) = ks.length ∧
    ∀ k ∈ ks,
      (entry "Executed" k.rExec).rawTime = k.rExec.now ∧
      (entry "Raw Input" k.r).rawTime = k.r.now ∧
      (k.r.now = k.rExec.now →
        (entry "Executed" k.rExec).rawTime = (entry "Raw Input" k.r).rawTime) ∧
      (k.r.now ≤ k.rExec.now →
        (entry "Raw Input" k.r).rawTime ≤ (entry "Executed" k.rExec).rawTime) := by
  refine ⟨?_, ?_, ?_, ?_⟩
  · induction ks generalizing s with
    | nil => rfl
    | cons k ks ih =>
      have hs : step s k.toAction
          = executeFunction k.rExec (addLog "Raw Input" k.r { s with inputText := k.val }) :=
        handleChange_none s k.val k.r k.tCall k.rExec h
      have hm : (step s k.toAction).mode = Mode.none := by rw [hs]; exact h
      have hl : (step s k.toAction).logs
          = entry "Executed" k.rExec :: entry "Raw Input" k.r :: s.logs := by rw [hs]; rfl
      rw [List.map_cons, run_cons, ih _ hm, hl]
      simp [immediateLog]
  · induction ks with
    | nil => rfl
    | cons k ks ih =>
      simp only [immediateLog, countType, List.filter_append, List.length_append] at ih ⊢
      rw [ih]
      simp [entry, List.filter_cons]
  · induction ks with
    | nil => rfl
    | cons k ks ih =>
      simp only [immediateLog, countType, List.filter_append, List.length_append] at ih ⊢
      rw [ih]
      simp [entry, List.filter_cons]
  · intro k _
    refine ⟨rfl, rfl, ?_, ?_⟩
    · intro e; simp [entry, e]
    · intro e; simpa [entry] using e

/-- C4, amended, at three keystrokes from the initial state. -/
theorem immediate_one_executed_per_input_witness :
    init.mode = Mode.none ∧
    timeline (run init ([⟨"a", at_ 10, 10, at_ 10⟩, ⟨"ab", at_ 20, 20, at_ 21⟩,
        ⟨"abc", at_ 30, 30, at_ 30⟩].map Keystroke.toAction))
      = [("Executed", 30), ("Raw Input", 30), ("Executed", 21), ("Raw Input", 20),
         ("Executed", 10), ("Raw Input", 10)] :=
  ⟨rfl, by
    have h := (immediate_one_executed_per_input init
      [⟨"a", at_ 10, 10, at_ 10⟩, ⟨"ab", at_ 20, 20, at_ 21⟩, ⟨"abc", at_ 30, 30, at_ 30⟩]
      rfl).1
    unfold timeline
    rw [h]
    decide⟩

/-! ## C6, C7, C10: the start time and a clock reading of zero -/

theorem orNow_of_ne_zero (t now : Int) (h : t ≠ 0) : orNow (some t) now = t := by
  simp [orNow, h]

/-- Once the start time holds a non-zero reading, `addLog` keeps it. -/
theorem addLog_startTime_stable (ty : String) (r : Reading) (s : State) (t : Int)
    (hs : s.startTime = some t) (ht : t ≠ 0) : (addLog ty r s).startTime = some t := by
  rw [addLog_startTime, hs, orNow_of_ne_zero t r.now ht]

/-- C6 at clock readings `0` and `1000`: the first `addLog` sets the start time
to the reading `0` of the first event, and the second `addLog` replaces that
start time by its own reading `1000`, since `prev || now` takes `0` for unset. -/
theorem startTime_replaced_after_zero :
    init.startTime = Option.none ∧
    (addLogs init [("Raw Input", at_ 0)]).startTime = some 0 ∧
    (addLogs init [("Raw Input", at_ 0), ("Executed", at_ 1000)]).startTime
      = some 1000 := by
  decide

/-- C7 at events recorded at epochs `0`, `1000` and `2500`: the start time ends
at `1000`, and the chart's relative times are `-1000`, `0` and `1500`
milliseconds (oldest event first) where the specification expects `0`, `1000`
and `2500`.  Were the start time `0` kept with these three records, the chart
expression would take it for unset and give `0` for each of them. -/
theorem projection_after_zero :
    (addLogs init [("Raw Input", at_ 0), ("Raw Input", at_ 1000),
        ("Raw Input", at_ 2500)]).startTime = some 1000 ∧
    (labelsMs (addLogs init [("Raw Input", at_ 0), ("Raw Input", at_ 1000),
        ("Raw Input", at_ 2500)])).reverse = [-1000, 0, 1500] ∧
    (labelsMs (withTimeline (some 0) [entry "Raw Input" (at_ 2500),
        entry "Raw Input" (at_ 1000), entry "Raw Input" (at_ 0)])).reverse = [0, 0, 0] := by
  decide

/-- C10 at non-decreasing clock readings `0` and `1000`: the start time ends at
`1000`, above the `rawTime` `0` of the first record, whose relative time is
`-1000` milliseconds, in the labels and in its dataset. -/
theorem relative_time_negative_after_zero :
    (addLogs init [("Raw Input", at_ 0), ("Executed", at_ 1000)]).startTime = some 1000 ∧
    labelsMs (addLogs init [("Raw Input", at_ 0), ("Executed", at_ 1000)]) = [0, -1000] ∧
    datasetMs "Raw Input" (addLogs init [("Raw Input", at_ 0), ("Executed", at_ 1000)])
      = [-1000] ∧
    ∃ l ∈ (addLogs init [("Raw Input", at_ 0), ("Executed", at_ 1000)]).logs,
      l.rawTime - 1000 < 0 := by
  refine ⟨by decide, by decide, by decide, entry "Raw Input" (at_ 0), by decide, by decide⟩

end Playground

namespace Playground

/-! ## Throttle: what one call of the wrapper does -/

/-- A throttle wrapper whose `shouldInvoke` holds runs `func` within the call. -/
theorem debounced_throttle_invokes (time : Int) (h : Debounced) (d : Nat)
    (hcfg : IsThrottle h d) (hs : shouldInvoke time h = true) :
    (debounced time h).2 = true := by
  obtain ⟨_, hl, hm, _, _⟩ := hcfg
  unfold debounced
  simp only [hs, if_true]
  by_cases ht : h.timerId = Option.none
  · simp [ht, leadingEdge, hl, invokeFunc]
  · simp [ht, hm, invokeFunc]

/-- A wrapper whose `shouldInvoke` fails does not run `func` within the call,
records the call and leaves a timer pending. -/
theorem debounced_waits (time : Int) (h : Debounced) (hs : shouldInvoke time h = false) :
    (debounced time h).2 = false ∧
    (debounced time h).1.lastArgs = true ∧
    (debounced time h).1.lastCallTime = some time ∧
    (debounced time h).1.lastInvokeTime = h.lastInvokeTime ∧
    (debounced time h).1.wait = h.wait ∧
    (debounced time h).1.maxing = h.maxing ∧
    (debounced time h).1.maxWait = h.maxWait ∧
    (debounced time h).1.trailing = h.trailing ∧
    ∃ due, (debounced time h).1.timerId = some due := by
  unfold debounced
  simp only [hs]
  by_cases ht : h.timerId = Option.none
  · simp [ht]
  · obtain ⟨due, hdue⟩ := Option.ne_none_iff_exists'.mp ht
    simp [hdue]

theorem handleChange_throttle (s : State) (val : String) (r : Reading) (tCall : Int)
    (rExec : Reading) (h : s.mode = Mode.throttle) :
    handleChange val r tCall rExec s
      = if (debounced tCall s.throttledHandler).2 then
          executeFunction rExec
            { addLog "Raw Input" r { s with inputText := val } with
              throttledHandler := (debounced tCall s.throttledHandler).1 }
        else
          { addLog "Raw Input" r { s with inputText := val } with
            throttledHandler := (debounced tCall s.throttledHandler).1 } := by
  simp [handleChange, addLog_mode, addLog_throttledHandler, h]

end Playground

namespace Playground

/-! ## C1: debounce -/

theorem setTimeout_wait (time : Int) (d : Nat) : setTimeout time (d : Int) = time + d := by
  unfold setTimeout
  have : max (d : Int) 0 = d := by omega
  rw [this]

/-- A debounce wrapper never runs `func` within a call; it records the call
and arms a timer unless one is pending. -/
theorem debounced_debounce (time : Int) (h : Debounced) (d : Nat) (hcfg : IsDebounce h d) :
    (debounced time h).2 = false ∧
    IsDebounce (debounced time h).1 d ∧
    (debounced time h).1.lastArgs = true ∧
    (debounced time h).1.lastCallTime = some time ∧
    (h.timerId = Option.none → (debounced time h).1.timerId = some (time + d)) ∧
    (∀ due, h.timerId = some due → (debounced time h).1.timerId = some due) := by
  obtain ⟨hw, hl, hm, htr⟩ := hcfg
  unfold debounced
  cases hs : shouldInvoke time h <;> cases ht : h.timerId <;>
    simp [IsDebounce, leadingEdge, hw, hl, hm, htr, setTimeout_wait]

theorem handleChange_debounce (s : State) (val : String) (r : Reading) (tCall : Int)
    (rExec : Reading) (h : s.mode = Mode.debounce) :
    handleChange val r tCall rExec s
      = if (debounced tCall s.debouncedHandler).2 then
          executeFunction rExec
            { addLog "Raw Input" r { s with inputText := val } with
              debouncedHandler := (debounced tCall s.debouncedHandler).1 }
        else
          { addLog "Raw Input" r { s with inputText := val } with
            debouncedHandler := (debounced tCall s.debouncedHandler).1 } := by
  simp [handleChange, addLog_mode, addLog_debouncedHandler, h]

/-- A keystroke keeps the burst invariant. -/
theorem burstInv_input (s0 s : State) (b b1 : Burst) (val : String) (r : Reading)
    (tCall : Int) (rExec : Reading) (hinv : BurstInv s0 s b)
    (hnext : Burst.next s0.delay b (Action.input val r tCall rExec) = some b1) :
    BurstInv s0 (handleChange val r tCall rExec s) b1 := by
  obtain ⟨hmode, hdelay, hcfg, hcases⟩ := hinv
  simp only [Burst.next] at hnext
  split at hnext
  case isFalse => exact absurd hnext (by simp)
  case isTrue hcond =>
    obtain ⟨hc1, hc2, hc3⟩ := hcond
    have hb1 : b1 = ⟨some r.now, some tCall, tCall, entry "Raw Input" r :: b.raws⟩ :=
      (Option.some.inj hnext).symm
    obtain ⟨d1, d2, d3, d4, d5, d6⟩ := debounced_debounce tCall s.debouncedHandler s0.delay hcfg
    have hst : handleChange val r tCall rExec s
        = { addLog "Raw Input" r { s with inputText := val } with
            debouncedHandler := (debounced tCall s.debouncedHandler).1 } := by
      rw [handleChange_debounce s val r tCall rExec hmode, d1]; rfl
    rw [hst, hb1]
    refine ⟨hmode, hdelay, d2, ?_⟩
    rcases hcases with ⟨_, _, hraws, htimer, hlogs⟩ | ⟨lr, lc, due, h1, h2, h3, h4, h5, h6, h7, h8, h9⟩ |
        ⟨lr, lc, e, h1, h2, h3, h4, h5, h6, h7, h8⟩
    · right; left
      refine ⟨r.now, tCall, tCall + s0.delay, rfl, rfl, hc2, le_refl _, d4, d3, d5 htimer,
        le_refl _, ?_⟩
      show entry "Raw Input" r :: s.logs = _
      rw [hlogs, hraws]; rfl
    · right; left
      refine ⟨r.now, tCall, due, rfl, rfl, hc2, le_refl _, d4, d3, d6 due h7, ?_, ?_⟩
      · omega
      · show entry "Raw Input" r :: s.logs = _
        rw [h9]; rfl
    · exfalso
      have := hc3 lr (by simp [h1])
      omega

/-- A callback of the debounce timer keeps the burst invariant. -/
theorem burstInv_timer (s0 s : State) (b b1 : Burst) (t : Int) (rExec : Reading)
    (hinv : BurstInv s0 s b)
    (hnext : Burst.next s0.delay b (Action.debounceTimer t rExec) = some b1) :
    BurstInv s0 (debounceTimerFires t rExec s) b1 := by
  obtain ⟨hmode, hdelay, hcfg, hcases⟩ := hinv
  simp only [Burst.next] at hnext
  split at hnext
  case isFalse => exact absurd hnext (by simp)
  case isTrue hcond =>
    obtain ⟨hc1, hc2⟩ := hcond
    have hb1 : b1 = { b with clock := t } := (Option.some.inj hnext).symm
    rw [hb1]
    obtain ⟨hw, hl, hm, htr⟩ := hcfg
    have hcfg : IsDebounce s.debouncedHandler s0.delay := ⟨hw, hl, hm, htr⟩
    rcases hcases with ⟨g1, g2, hraws, htimer, hlogs⟩ | ⟨lr, lc, due, h1, h2, h3, h4, h5, h6, h7, h8, h9⟩ |
        ⟨lr, lc, e, h1, h2, h3, h4, h5, h6, h7, h8⟩
    · rw [debounceTimerFires_idle t rExec s htimer]
      exact ⟨hmode, hdelay, hcfg, Or.inl ⟨g1, g2, hraws, htimer, hlogs⟩⟩
    · by_cases hdue : due ≤ t
      · by_cases hq : (s0.delay : Int) ≤ t - lc
        · have hsT : shouldInvoke t s.debouncedHandler = true := by
            simp [shouldInvoke, h5, hw, hq]
          have hexp : timerExpired t s.debouncedHandler
              = ((invokeFunc t { s.debouncedHandler with timerId := Option.none }).1, true) := by
            simp [timerExpired, hsT, trailingEdge, invokeFunc, htr, h6]
          have hst : debounceTimerFires t rExec s
              = executeFunction rExec
                  { s with debouncedHandler :=
                      (invokeFunc t { s.debouncedHandler with timerId := Option.none }).1 } := by
            simp [debounceTimerFires, h7, hdue, hexp]
          rw [hst]
          refine ⟨hmode, hdelay, ⟨hw, hl, hm, htr⟩, Or.inr (Or.inr ?_)⟩
          refine ⟨lr, lc, entry "Executed" rExec, h1, h2, h3, ?_, rfl, rfl, ?_, ?_⟩
          · show lc + (s0.delay : Int) ≤ t
            omega
          · show lc + (s0.delay : Int) ≤ rExec.now
            omega
          · show entry "Executed" rExec :: s.logs = _
            rw [h9]; rfl
        · have hsT : shouldInvoke t s.debouncedHandler = false := by
            have hn : ¬ (t - lc < 0) := by
              have : lc ≤ t := le_trans h4 hc1
              omega
            simp [shouldInvoke, h5, hw, hm, hq, hn]
          have hrem : setTimeout t (remainingWait t s.debouncedHandler) = lc + s0.delay := by
            have hmax : max ((s0.delay : Int) - (t - lc)) 0 = (s0.delay : Int) - (t - lc) := by
              omega
            simp only [setTimeout, remainingWait, h5, hm, hw]
            simp only [Bool.false_eq_true, if_false, hmax]
            omega
          have hst : debounceTimerFires t rExec s
              = { s with debouncedHandler :=
                    { s.debouncedHandler with timerId := some (lc + s0.delay) } } := by
            simp [debounceTimerFires, h7, hdue, timerExpired, hsT, hrem]
          rw [hst]
          refine ⟨hmode, hdelay, ⟨hw, hl, hm, htr⟩, Or.inr (Or.inl ?_)⟩
          exact ⟨lr, lc, lc + s0.delay, h1, h2, h3, le_trans h4 hc1, h5, h6, rfl, le_refl _, h9⟩
      · have hst : debounceTimerFires t rExec s = s := by
          simp [debounceTimerFires, h7, hdue]
        rw [hst]
        refine ⟨hmode, hdelay, hcfg, Or.inr (Or.inl ?_)⟩
        exact ⟨lr, lc, due, h1, h2, h3, le_trans h4 hc1, h5, h6, h7, h8, h9⟩
    · rw [debounceTimerFires_idle t rExec s h5]
      refine ⟨hmode, hdelay, hcfg, Or.inr (Or.inr ?_)⟩
      exact ⟨lr, lc, e, h1, h2, h3, le_trans h4 hc1, h5, h6, h7, h8⟩

/-- Every event of a burst keeps the burst invariant. -/
theorem burstInv_scan (s0 : State) (tr : List Action) (s : State) (b b1 : Burst)
    (hinv : BurstInv s0 s b) (hscan : Burst.scan s0.delay b tr = some b1) :
    BurstInv s0 (run s tr) b1 := by
  induction tr generalizing s b with
  | nil =>
    simp only [Burst.scan] at hscan
    rw [← Option.some.inj hscan]
    exact hinv
  | cons a as ih =>
    simp only [Burst.scan] at hscan
    cases hn : Burst.next s0.delay b a with
    | none => simp [hn] at hscan
    | some b2 =>
      rw [hn] at hscan
      rw [run_cons]
      refine ih (step s a) b2 ?_ hscan
      cases a with
      | input v r tc rE => exact burstInv_input s0 s b b2 v r tc rE hinv hn
      | debounceTimer t rE => exact burstInv_timer s0 s b b2 t rE hinv hn
      | throttleTimer t rE => simp [Burst.next] at hn
      | selectMode m => simp [Burst.next] at hn
      | slideDelay d => simp [Burst.next] at hn
      | reset => simp [Burst.next] at hn

/-- The records a burst adds are all `Raw Input` records. -/
theorem scan_raws (d : Nat) (tr : List Action) (b b1 : Burst)
    (hscan : Burst.scan d b tr = some b1) (hb : ∀ l ∈ b.raws, l.type = "Raw Input") :
    ∀ l ∈ b1.raws, l.type = "Raw Input" := by
  induction tr generalizing b with
  | nil =>
    simp only [Burst.scan] at hscan
    rw [← Option.some.inj hscan]
    exact hb
  | cons a as ih =>
    simp only [Burst.scan] at hscan
    cases hn : Burst.next d b a with
    | none => simp [hn] at hscan
    | some b2 =>
      rw [hn] at hscan
      refine ih b2 hscan ?_
      cases a with
      | input v r tc rE =>
        simp only [Burst.next] at hn
        split at hn
        · rw [← Option.some.inj hn]
          intro l hl
          rcases List.mem_cons.mp hl with rfl | hl
          · rfl
          · exact hb l hl
        · simp at hn
      | debounceTimer t rE =>
        simp only [Burst.next] at hn
        split at hn
        · rw [← Option.some.inj hn]
          exact hb
        · simp at hn
      | throttleTimer t rE => simp [Burst.next] at hn
      | selectMode m => simp [Burst.next] at hn
      | slideDelay d => simp [Burst.next] at hn
      | reset => simp [Burst.next] at hn

theorem countType_raws (raws : List LogEntry) (h : ∀ l ∈ raws, l.type = "Raw Input") :
    countType "Executed" raws = 0 ∧ countType "Raw Input" raws = raws.length := by
  induction raws with
  | nil => exact ⟨rfl, rfl⟩
  | cons l ls ih =>
    have hl : l.type = "Raw Input" := h l (List.mem_cons_self l ls)
    have ih2 := ih (fun x hx => h x (List.mem_cons_of_mem l hx))
    rw [countType_cons, countType_cons, hl, ih2.1, ih2.2]
    simp
    omega

end Playground

namespace Playground

theorem run_debounceTimers_idle (post : List (Int × Reading)) (s : State)
    (h : s.debouncedHandler.timerId = Option.none) :
    run s (post.map debounceTimerAt) = s := by
  induction post with
  | nil => rfl
  | cons p ps ih =>
    rw [List.map_cons, run_cons]
    have : step s (debounceTimerAt p) = s := debounceTimerFires_idle p.1 p.2 s h
    rw [this]
    exact ih

/-- A burst has one `Raw Input` record for each of its keystrokes. -/
theorem scan_raws_length (d : Nat) (tr : List Action) (b b1 : Burst)
    (hscan : Burst.scan d b tr = some b1) :
    b1.raws.length = b.raws.length + keystrokes tr := by
  induction tr generalizing b with
  | nil =>
    simp only [Burst.scan] at hscan
    rw [← Option.some.inj hscan]
    rfl
  | cons a as ih =>
    simp only [Burst.scan] at hscan
    cases hn : Burst.next d b a with
    | none => simp [hn] at hscan
    | some b2 =>
      rw [hn] at hscan
      rw [ih b2 hscan]
      cases a with
      | input v r tc rE =>
        simp only [Burst.next] at hn
        split at hn
        · rw [← Option.some.inj hn]
          simp [keystrokes, Action.isTimer, List.filter_cons]
          omega
        · simp at hn
      | debounceTimer t rE =>
        simp only [Burst.next] at hn
        split at hn
        · rw [← Option.some.inj hn]
          simp [keystrokes, Action.isTimer, List.filter_cons]
        · simp at hn
      | throttleTimer t rE => simp [Burst.next] at hn
      | selectMode m => simp [Burst.next] at hn
      | slideDelay d => simp [Burst.next] at hn
      | reset => simp [Burst.next] at hn

/-- A burst that has a last keystroke has a record of it. -/
theorem scan_raws_ne_nil (d : Nat) (tr : List Action) (b b1 : Burst)
    (hscan : Burst.scan d b tr = some b1) (hb : b.lastRaw ≠ Option.none → b.raws ≠ []) :
    b1.lastRaw ≠ Option.none → b1.raws ≠ [] := by
  induction tr generalizing b with
  | nil =>
    simp only [Burst.scan] at hscan
    rw [← Option.some.inj hscan]
    exact hb
  | cons a as ih =>
    simp only [Burst.scan] at hscan
    cases hn : Burst.next d b a with
    | none => simp [hn] at hscan
    | some b2 =>
      rw [hn] at hscan
      refine ih b2 hscan ?_
      cases a with
      | input v r tc rE =>
        simp only [Burst.next] at hn
        split at hn
        · rw [← Option.some.inj hn]
          intro _
          simp
        · simp at hn
      | debounceTimer t rE =>
        simp only [Burst.next] at hn
        split at hn
        · rw [← Option.some.inj hn]
          exact hb
        · simp at hn
      | throttleTimer t rE => simp [Burst.next] at hn
      | selectMode m => simp [Burst.next] at hn
      | slideDelay d => simp [Burst.next] at hn
      | reset => simp [Burst.next] at hn

/-- C1: take a state in mode `debounce` whose debounce wrapper is the one lodash
builds for the current delay and has no timer pending, and from it any burst:
keystrokes that come less than `delay` after one another on a clock that
does not go back, with callbacks of the wrapper's timer running between and
after them at any times the clock allows (`Burst.scan`).  If the burst has a
keystroke and the timer's callback then runs at a time `T` that is `delay` or
more after the last call, the log consists of exactly one `Executed` record
above the burst's `Raw Input` records (one per keystroke) above the old log;
the `rawTime` of that `Executed` record is at least the `rawTime` of the last
`Raw Input` plus `delay`; no timer is pending afterwards, and further
callbacks of the debounce timer add nothing. -/
theorem debounce_burst_executes_once (s : State) (c0 : Int) (tr : List Action)
    (b : Burst) (lr lc T : Int) (rE : Reading) (post : List (Int × Reading))
    (hmode : s.mode = Mode.debounce)
    (hcfg : IsDebounce s.debouncedHandler s.delay)
    (hidle : s.debouncedHandler.timerId = Option.none)
    (hscan : Burst.scan s.delay (Burst.start c0) tr = some b)
    (hlr : b.lastRaw = some lr) (hlc : b.lastCall = some lc)
    (hT : lc + (s.delay : Int) ≤ T) (hck : b.clock ≤ T) (hE : T ≤ rE.now) :
    ∃ e : LogEntry, e.type = "Executed" ∧ lr + (s.delay : Int) ≤ e.rawTime ∧
      (run s (tr ++ [Action.debounceTimer T rE])).logs = e :: b.raws ++ s.logs ∧
      (run s (tr ++ Action.debounceTimer T rE :: post.map debounceTimerAt)).logs
        = e :: b.raws ++ s.logs ∧
      (∀ l ∈ b.raws, l.type = "Raw Input") ∧
      b.raws.length = keystrokes tr ∧ 1 ≤ keystrokes tr ∧
      countType "Executed" (e :: b.raws) = 1 ∧
      countType "Raw Input" (e :: b.raws) = keystrokes tr := by
  have hstart : BurstInv s s (Burst.start c0) :=
    ⟨hmode, rfl, hcfg, Or.inl ⟨rfl, rfl, rfl, hidle, rfl⟩⟩
  have hinv := burstInv_scan s tr s (Burst.start c0) b hstart hscan
  have hraws : ∀ l ∈ b.raws, l.type = "Raw Input" :=
    scan_raws s.delay tr (Burst.start c0) b hscan (by simp [Burst.start])
  have hlen : b.raws.length = keystrokes tr := by
    rw [scan_raws_length s.delay tr (Burst.start c0) b hscan]
    simp [Burst.start]
  have hfinal : Burst.next s.delay b (Action.debounceTimer T rE)
      = some { b with clock := T } := by
    simp [Burst.next, hck, hE]
  have hinv2 := burstInv_timer s (run s tr) b _ T rE hinv hfinal
  obtain ⟨_, _, _, hcases⟩ := hinv2
  have hrun : run s (tr ++ [Action.debounceTimer T rE])
      = debounceTimerFires T rE (run s tr) := by
    rw [run_append]; rfl
  rcases hcases with ⟨g1, _⟩ | ⟨lr2, lc2, due, _, g2, _, g4, _, _, _, g8, _⟩ |
      ⟨lr2, lc2, e, g1, g2, g3, g4, g5, g6, g7, g8⟩
  · simp [hlr] at g1
  · exfalso
    have hg2 : b.lastCall = some lc2 := g2
    have hg4 : lc2 ≤ T := g4
    rw [hlc] at hg2
    -- the timer ran at `T`, at least `delay` after the last call: it cannot be pending
    have hlc2 : lc = lc2 := Option.some.inj hg2
    subst hlc2
    obtain ⟨_, _, hcfgr, hc⟩ := hinv
    rcases hc with ⟨k1, _⟩ | ⟨a1, a2, adue, k1, k2, k3, k4, k5, k6, k7, k8, k9⟩ |
        ⟨a1, a2, ae, k1, k2, k3, k4, k5, k6, k7, k8⟩
    · simp [hlr] at k1
    · have hk2 : lc = a2 := Option.some.inj (hlc.symm.trans k2)
      subst hk2
      obtain ⟨hw, hl, hm, htr⟩ := hcfgr
      have hsT : shouldInvoke T (run s tr).debouncedHandler = true := by
        have : (s.delay : Int) ≤ T - lc := by omega
        simp [shouldInvoke, k5, hw, this]
      have hdue : adue ≤ T := by omega
      have hnone : (debounceTimerFires T rE (run s tr)).debouncedHandler.timerId
          = Option.none := by
        simp only [debounceTimerFires, k7, hdue, if_true]
        simp [timerExpired, hsT, trailingEdge, invokeFunc, htr, k6, executeFunction,
          addLog_debouncedHandler]
      have hsome : (debounceTimerFires T rE (run s tr)).debouncedHandler.timerId
          = some due := by assumption
      rw [hnone] at hsome
      exact absurd hsome (by simp)
    · have hsame : debounceTimerFires T rE (run s tr) = run s tr :=
        debounceTimerFires_idle T rE _ k5
      have hsome : (debounceTimerFires T rE (run s tr)).debouncedHandler.timerId
          = some due := by assumption
      rw [hsame, k5] at hsome
      exact absurd hsome (by simp)
  · have hg1 : b.lastRaw = some lr2 := g1
    have hg2 : b.lastCall = some lc2 := g2
    have e1 : lr = lr2 := Option.some.inj (hlr.symm.trans hg1)
    have e2 : lc = lc2 := Option.some.inj (hlc.symm.trans hg2)
    subst e1 e2
    have hlogs : (run s (tr ++ [Action.debounceTimer T rE])).logs = e :: b.raws ++ s.logs := by
      rw [hrun]; exact g8
    have hcnt := countType_raws b.raws hraws
    refine ⟨e, g6, by omega, hlogs, ?_, hraws, hlen, ?_, ?_, ?_⟩
    · have happ : tr ++ Action.debounceTimer T rE :: post.map debounceTimerAt
          = (tr ++ [Action.debounceTimer T rE]) ++ post.map debounceTimerAt := by simp
      rw [happ, run_append, run_debounceTimers_idle post _ (by rw [hrun]; exact g5)]
      exact hlogs
    · rw [← hlen]
      have hne : b.raws ≠ [] :=
        scan_raws_ne_nil s.delay tr (Burst.start c0) b hscan (by simp [Burst.start])
          (by simp [hlr])
      exact Nat.succ_le_of_lt (List.length_pos.mpr hne)
    · rw [countType_cons, g6, hcnt.1]; rfl
    · rw [countType_cons, g6, hcnt.2, hlen]
      simp

/-- C1 at the scenario of the specification: delay 500, keystrokes at
`t = 0, 100, 200`; the timer's callback at `t = 500` re-arms the timer, its
callback at `t = 700` adds the one `Executed` record. -/
theorem debounce_burst_executes_once_witness :
    (debounce500.mode = Mode.debounce ∧
      IsDebounce debounce500.debouncedHandler debounce500.delay ∧
      debounce500.debouncedHandler.timerId = Option.none ∧
      Burst.scan debounce500.delay (Burst.start 0) burst3 = some burst3End ∧
      burst3End.lastRaw = some 200 ∧ burst3End.lastCall = some 200 ∧
      (200 : Int) + (debounce500.delay : Int) ≤ 700 ∧ burst3End.clock ≤ 700 ∧
      (700 : Int) ≤ (at_ 700).now) ∧
    timeline (run debounce500 burst3)
      = [("Raw Input", 200), ("Raw Input", 100), ("Raw Input", 0)] ∧
    timeline (run debounce500 (burst3 ++ [Action.debounceTimer 700 (at_ 700)]))
      = [("Executed", 700), ("Raw Input", 200), ("Raw Input", 100), ("Raw Input", 0)] ∧
    ∃ e : LogEntry, e.type = "Executed" ∧ (200 : Int) + (debounce500.delay : Int) ≤ e.rawTime ∧
      (run debounce500 (burst3 ++ [Action.debounceTimer 700 (at_ 700)])).logs
        = e :: burst3End.raws ++ debounce500.logs ∧
      (run debounce500 (burst3 ++ Action.debounceTimer 700 (at_ 700)
          :: [((900 : Int), at_ 900)].map debounceTimerAt)).logs
        = e :: burst3End.raws ++ debounce500.logs ∧
      (∀ l ∈ burst3End.raws, l.type = "Raw Input") ∧
      burst3End.raws.length = keystrokes burst3 ∧ 1 ≤ keystrokes burst3 ∧
      countType "Executed" (e :: burst3End.raws) = 1 ∧
      countType "Raw Input" (e :: burst3End.raws) = keystrokes burst3 :=
  ⟨⟨by decide, by decide, by decide, by decide, by decide, by decide, by decide, by decide,
      by decide⟩,
    by decide, by decide,
    debounce_burst_executes_once debounce500 0 burst3 burst3End 200 200 700 (at_ 700)
      [((900 : Int), at_ 900)]
      (by decide) (by decide) (by decide) (by decide) (by decide) (by decide) (by decide)
      (by decide) (by decide)⟩

end Playground

namespace Playground

/-! ## The start time under a clock that never reads zero -/

theorem addLogs_cons (s : State) (e : String × Reading) (evs : List (String × Reading)) :
    addLogs s (e :: evs) = addLogs (addLog e.1 e.2 s) evs := rfl

/-- With a non-zero start time in place, no run of `addLog` calls changes it. -/
theorem addLogs_startTime_stable (evs : List (String × Reading)) (s : State) (t : Int)
    (hs : s.startTime = some t) (ht : t ≠ 0) : (addLogs s evs).startTime = some t := by
  induction evs generalizing s with
  | nil => exact hs
  | cons e es ih =>
    rw [addLogs_cons]
    exact ih _ (addLog_startTime_stable e.1 e.2 s t hs ht)

/-- From a state without start time, a first `addLog` with a non-zero reading
sets the start time to that reading, and the later calls keep it. -/
theorem addLogs_startTime_first (s : State) (e : String × Reading)
    (evs : List (String × Reading)) (hs : s.startTime = Option.none) (he : e.2.now ≠ 0) :
    (addLogs s (e :: evs)).startTime = some e.2.now := by
  rw [addLogs_cons]
  refine addLogs_startTime_stable evs _ e.2.now ?_ he
  rw [addLog_startTime, hs]
  rfl

/-- The records of a run of `addLog` calls, above the old log. -/
theorem addLogs_logs (evs : List (String × Reading)) (s : State) :
    (addLogs s evs).logs = (evs.map (fun e => entry e.1 e.2)).reverse ++ s.logs := by
  induction evs generalizing s with
  | nil => rfl
  | cons e es ih =>
    rw [addLogs_cons, ih, addLog_logs]
    simp

/-- From a state with an empty log and no start time, `addLog` calls whose
readings are non-zero and do not go back leave no record with a negative
relative time. -/
theorem addLogs_relativeMs_nonneg (s : State) (evs : List (String × Reading))
    (hs : s.startTime = Option.none) (hl : s.logs = [])
    (hne : ∀ e ∈ evs, e.2.now ≠ 0)
    (hmono : (evs.map (fun e => e.2.now)).Pairwise (fun a b => a ≤ b)) :
    ∀ x ∈ labelsMs (addLogs s evs), 0 ≤ x := by
  cases evs with
  | nil =>
    intro x hx
    simp [labelsMs, addLogs, hl] at hx
  | cons e es =>
    have he : e.2.now ≠ 0 := hne e (List.mem_cons_self e es)
    have hst := addLogs_startTime_first s e es hs he
    have hlogs := addLogs_logs (e :: es) s
    intro x hx
    simp only [labelsMs, hst, hlogs, hl, List.append_nil, List.mem_map, List.mem_reverse] at hx
    obtain ⟨l, ⟨e2, he2, rfl⟩, rfl⟩ := hx
    have hle : e.2.now ≤ e2.2.now := by
      rcases List.mem_cons.mp he2 with rfl | hmem
      · exact le_refl _
      · rw [List.map_cons, List.pairwise_cons] at hmono
        exact hmono.1 _ (List.mem_map.mpr ⟨e2, hmem, rfl⟩)
    simp only [relativeMs, orNow_of_ne_zero _ _ he, entry]
    omega

/-- Events at epochs `t0`, `t0 + 1000`, `t0 + 2500` with `t0` not zero have the
relative times `0`, `1000` and `2500` milliseconds. -/
theorem labelsMs_three (t0 : Int) (h0 : t0 ≠ 0) (w1 w2 w3 : String) (n1 n2 n3 : Nat)
    (ty1 ty2 ty3 : String) :
    (labelsMs (addLogs init [(ty1, ⟨t0, w1, n1⟩), (ty2, ⟨t0 + 1000, w2, n2⟩),
        (ty3, ⟨t0 + 2500, w3, n3⟩)])).reverse = [0, 1000, 2500] := by
  have hst := addLogs_startTime_first init (ty1, ⟨t0, w1, n1⟩)
    [(ty2, ⟨t0 + 1000, w2, n2⟩), (ty3, ⟨t0 + 2500, w3, n3⟩)] rfl h0
  have hlogs := addLogs_logs [(ty1, ⟨t0, w1, n1⟩), (ty2, ⟨t0 + 1000, w2, n2⟩),
    (ty3, ⟨t0 + 2500, w3, n3⟩)] init
  simp only [labelsMs, hst, hlogs]
  simp [relativeMs, orNow_of_ne_zero _ _ h0, entry, init]

/-! ## The wrappers of every reachable state -/

theorem debounced_config (time : Int) (h : Debounced) :
    (debounced time h).1.wait = h.wait ∧ (debounced time h).1.leading = h.leading ∧
    (debounced time h).1.maxing = h.maxing ∧ (debounced time h).1.maxWait = h.maxWait ∧
    (debounced time h).1.trailing = h.trailing := by
  unfold debounced
  cases shouldInvoke time h <;> cases h.timerId <;> cases hl : h.leading <;>
    cases hm : h.maxing <;> simp [leadingEdge, invokeFunc, hl, hm]

theorem timerExpired_config (time : Int) (h : Debounced) :
    (timerExpired time h).1.wait = h.wait ∧ (timerExpired time h).1.leading = h.leading ∧
    (timerExpired time h).1.maxing = h.maxing ∧ (timerExpired time h).1.maxWait = h.maxWait ∧
    (timerExpired time h).1.trailing = h.trailing := by
  unfold timerExpired
  cases shouldInvoke time h <;> cases ht : h.trailing <;> cases ha : h.lastArgs <;>
    simp [trailingEdge, invokeFunc, ht, ha]

theorem isDebounce_of_config (h g : Debounced) (d : Nat) (hc : IsDebounce h d)
    (hg : g.wait = h.wait ∧ g.leading = h.leading ∧ g.maxing = h.maxing ∧
      g.maxWait = h.maxWait ∧ g.trailing = h.trailing) : IsDebounce g d := by
  obtain ⟨a1, a2, a3, a4⟩ := hc
  obtain ⟨b1, b2, b3, _, b5⟩ := hg
  exact ⟨b1.trans a1, b2.trans a2, b3.trans a3, b5.trans a4⟩

theorem isThrottle_of_config (h g : Debounced) (d : Nat) (hc : IsThrottle h d)
    (hg : g.wait = h.wait ∧ g.leading = h.leading ∧ g.maxing = h.maxing ∧
      g.maxWait = h.maxWait ∧ g.trailing = h.trailing) : IsThrottle g d := by
  obtain ⟨a1, a2, a3, a4, a5⟩ := hc
  obtain ⟨b1, b2, b3, b4, b5⟩ := hg
  exact ⟨b1.trans a1, b2.trans a2, b3.trans a3, b4.trans a4, b5.trans a5⟩

theorem isDebounce_fresh (d : Nat) : IsDebounce (debounce d Option.none) d :=
  ⟨rfl, rfl, rfl, rfl⟩

theorem isThrottle_fresh (d : Nat) : IsThrottle (throttle d) d := by
  refine ⟨rfl, rfl, rfl, ?_, rfl⟩
  simp [throttle, debounce]

end Playground

namespace Playground

theorem wellFormed_init : WellFormed init :=
  ⟨isDebounce_fresh 1000, isThrottle_fresh 1000, fun _ => rfl, fun _ => rfl⟩

theorem wellFormed_setDelay (d : Nat) (s : State) (h : WellFormed s) :
    WellFormed (setDelay d s) := by
  unfold setDelay
  by_cases hd : d = s.delay
  · simpa [hd] using h
  · simp only [hd, if_false]
    exact ⟨isDebounce_fresh d, isThrottle_fresh d, fun _ => rfl, fun _ => rfl⟩

theorem wellFormed_handleChange (val : String) (r : Reading) (tCall : Int) (rExec : Reading)
    (s : State) (h : WellFormed s) : WellFormed (handleChange val r tCall rExec s) := by
  obtain ⟨h1, h2, h3, h4⟩ := h
  cases hm : s.mode with
  | none =>
    rw [handleChange_none s val r tCall rExec hm]
    exact ⟨h1, h2, h3, h4⟩
  | debounce =>
    have hd := isDebounce_of_config _ _ _ h1 (debounced_config tCall s.debouncedHandler)
    have h4x : s.throttledHandler.timerId = Option.none := h4 (by rw [hm]; decide)
    rw [handleChange_debounce s val r tCall rExec hm]
    split
    · exact ⟨hd, h2, fun hne => absurd hm hne, fun _ => h4x⟩
    · exact ⟨hd, h2, fun hne => absurd hm hne, fun _ => h4x⟩
  | throttle =>
    have ht := isThrottle_of_config _ _ _ h2 (debounced_config tCall s.throttledHandler)
    have h3x : s.debouncedHandler.timerId = Option.none := h3 (by rw [hm]; decide)
    rw [handleChange_throttle s val r tCall rExec hm]
    split
    · exact ⟨h1, ht, fun _ => h3x, fun hne => absurd hm hne⟩
    · exact ⟨h1, ht, fun _ => h3x, fun hne => absurd hm hne⟩

theorem wellFormed_debounceTimerFires (t : Int) (rExec : Reading) (s : State)
    (h : WellFormed s) : WellFormed (debounceTimerFires t rExec s) := by
  obtain ⟨h1, h2, h3, h4⟩ := h
  cases htm : s.debouncedHandler.timerId with
  | none =>
    rw [debounceTimerFires_idle t rExec s htm]
    exact ⟨h1, h2, h3, h4⟩
  | some due =>
    have hmode : s.mode = Mode.debounce := by
      by_contra hne
      rw [h3 hne] at htm
      exact absurd htm (by simp)
    have hd := isDebounce_of_config _ _ _ h1 (timerExpired_config t s.debouncedHandler)
    simp only [debounceTimerFires, htm]
    split
    · split
      · exact ⟨hd, h2, fun hne => absurd hmode hne, h4⟩
      · exact ⟨hd, h2, fun hne => absurd hmode hne, h4⟩
    · exact ⟨h1, h2, h3, h4⟩

theorem wellFormed_throttleTimerFires (t : Int) (rExec : Reading) (s : State)
    (h : WellFormed s) : WellFormed (throttleTimerFires t rExec s) := by
  obtain ⟨h1, h2, h3, h4⟩ := h
  cases htm : s.throttledHandler.timerId with
  | none =>
    rw [throttleTimerFires_idle t rExec s htm]
    exact ⟨h1, h2, h3, h4⟩
  | some due =>
    have hmode : s.mode = Mode.throttle := by
      by_contra hne
      rw [h4 hne] at htm
      exact absurd htm (by simp)
    have ht := isThrottle_of_config _ _ _ h2 (timerExpired_config t s.throttledHandler)
    simp only [throttleTimerFires, htm]
    split
    · split
      · exact ⟨h1, ht, h3, fun hne => absurd hmode hne⟩
      · exact ⟨h1, ht, h3, fun hne => absurd hmode hne⟩
    · exact ⟨h1, h2, h3, h4⟩

theorem wellFormed_step (s : State) (a : Action) (h : WellFormed s) :
    WellFormed (step s a) := by
  cases a with
  | input v r tc rE => exact wellFormed_handleChange v r tc rE s h
  | debounceTimer t rE => exact wellFormed_debounceTimerFires t rE s h
  | throttleTimer t rE => exact wellFormed_throttleTimerFires t rE s h
  | selectMode m =>
    obtain ⟨h1, h2, _, _⟩ := h
    exact ⟨h1, h2, fun _ => rfl, fun _ => rfl⟩
  | slideDelay d => exact wellFormed_setDelay d s h
  | reset =>
    obtain ⟨h1, h2, _, _⟩ := h
    refine wellFormed_setDelay 1000 _ ?_
    exact ⟨h1, h2, fun _ => rfl, fun _ => rfl⟩

/-- In every state reached from the mounted component by keystrokes, timer
callbacks, mode changes, delay changes and resets, the two wrappers are those
lodash builds for the current delay, and a wrapper has a timer pending only in
its own mode. -/
theorem wellFormed_run (tr : List Action) (s : State) (h : WellFormed s) :
    WellFormed (run s tr) := by
  induction tr generalizing s with
  | nil => exact h
  | cons a as ih =>
    rw [run_cons]
    exact ih _ (wellFormed_step s a h)

end Playground

namespace Playground

/-! ## C2: throttle over whole runs -/

theorem handleChange_logs_cases (s : State) (val : String) (r : Reading) (tCall : Int)
    (rExec : Reading) :
    (handleChange val r tCall rExec s).logs = entry "Raw Input" r :: s.logs ∨
    (handleChange val r tCall rExec s).logs
      = entry "Executed" rExec :: entry "Raw Input" r :: s.logs := by
  unfold handleChange
  simp only [addLog_mode]
  cases s.mode with
  | none => right; rfl
  | debounce =>
    simp only
    split
    · right; rfl
    · left; rfl
  | throttle =>
    simp only
    split
    · right; rfl
    · left; rfl

theorem debounceTimerFires_logs_cases (t : Int) (rExec : Reading) (s : State) :
    (debounceTimerFires t rExec s).logs = s.logs ∨
    (debounceTimerFires t rExec s).logs = entry "Executed" rExec :: s.logs := by
  unfold debounceTimerFires
  cases s.debouncedHandler.timerId with
  | none => left; rfl
  | some due =>
    simp only
    split
    · split
      · right; rfl
      · left; rfl
    · left; rfl

theorem throttleTimerFires_logs_cases (t : Int) (rExec : Reading) (s : State) :
    (throttleTimerFires t rExec s).logs = s.logs ∨
    (throttleTimerFires t rExec s).logs = entry "Executed" rExec :: s.logs := by
  unfold throttleTimerFires
  cases s.throttledHandler.timerId with
  | none => left; rfl
  | some due =>
    simp only
    split
    · split
      · right; rfl
      · left; rfl
    · left; rfl

theorem countType_executed_raw (r : Reading) (logs : List LogEntry) :
    countType "Executed" (entry "Raw Input" r :: logs) = countType "Executed" logs := by
  rw [countType_cons]
  simp [entry]

theorem countType_executed_executed (r : Reading) (logs : List LogEntry) :
    countType "Executed" (entry "Executed" r :: logs) = countType "Executed" logs + 1 := by
  rw [countType_cons]
  simp [entry]
  omega

/-- Keystrokes and timer callbacks never take an `Executed` record away. -/
theorem step_countExecuted_le (s : State) (a : Action) (ha : a.isInputOrTimer = true) :
    countType "Executed" s.logs ≤ countType "Executed" (step s a).logs := by
  cases a with
  | input v r tc rE =>
    rcases handleChange_logs_cases s v r tc rE with h | h
    · show _ ≤ countType "Executed" (handleChange v r tc rE s).logs
      rw [h, countType_executed_raw]
    · show _ ≤ countType "Executed" (handleChange v r tc rE s).logs
      rw [h, countType_executed_executed, countType_executed_raw]
      omega
  | debounceTimer t rE =>
    rcases debounceTimerFires_logs_cases t rE s with h | h
    · show _ ≤ countType "Executed" (debounceTimerFires t rE s).logs
      rw [h]
    · show _ ≤ countType "Executed" (debounceTimerFires t rE s).logs
      rw [h, countType_executed_executed]
      omega
  | throttleTimer t rE =>
    rcases throttleTimerFires_logs_cases t rE s with h | h
    · show _ ≤ countType "Executed" (throttleTimerFires t rE s).logs
      rw [h]
    · show _ ≤ countType "Executed" (throttleTimerFires t rE s).logs
      rw [h, countType_executed_executed]
      omega
  | selectMode m => simp [Action.isInputOrTimer] at ha
  | slideDelay d => simp [Action.isInputOrTimer] at ha
  | reset => simp [Action.isInputOrTimer] at ha

theorem run_countExecuted_le (tr : List Action) (s : State)
    (htr : ∀ a ∈ tr, a.isInputOrTimer = true) :
    countType "Executed" s.logs ≤ countType "Executed" (run s tr).logs := by
  induction tr generalizing s with
  | nil => exact le_refl _
  | cons a as ih =>
    rw [run_cons]
    have h1 := step_countExecuted_le s a (htr a (List.mem_cons_self a as))
    have h2 := ih (step s a) (fun b hb => htr b (List.mem_cons_of_mem a hb))
    omega

/-- With the throttle wrapper, `func` runs within a call exactly when
`shouldInvoke` holds. -/
theorem debounced_throttle_eq (time : Int) (h : Debounced) (d : Nat)
    (hcfg : IsThrottle h d) : (debounced time h).2 = shouldInvoke time h := by
  cases hs : shouldInvoke time h with
  | true => exact debounced_throttle_invokes time h d hcfg hs
  | false => exact (debounced_waits time h hs).1

/-- A keystroke or timer callback met by a queued call either adds an
`Executed` record or leaves the call queued and the log's `Executed` records
as they are. -/
theorem queued_step (d : Nat) (L : Int) (s : State) (a : Action) (hq : Queued d L s)
    (ha : a.isInputOrTimer = true) :
    countType "Executed" (step s a).logs = countType "Executed" s.logs + 1 ∨
    (countType "Executed" (step s a).logs = countType "Executed" s.logs ∧
      Queued d L (step s a)) := by
  obtain ⟨hmode, hdelay, hwf, hargs, hinv, due, hdue⟩ := hq
  have hwf2 : WellFormed (step s a) := wellFormed_step s a hwf
  obtain ⟨_, hcfg, hdeb, _⟩ := hwf
  obtain ⟨hw, hl, hm, hmw, htr⟩ := hcfg
  have hcfg : IsThrottle s.throttledHandler s.delay := ⟨hw, hl, hm, hmw, htr⟩
  cases a with
  | input v r tc rE =>
    have hc := handleChange_throttle s v r tc rE hmode
    cases hs : shouldInvoke tc s.throttledHandler with
    | true =>
      left
      have h2 := debounced_throttle_invokes tc _ _ hcfg hs
      have hlogs : (handleChange v r tc rE s).logs
          = entry "Executed" rE :: entry "Raw Input" r :: s.logs := by
        rw [hc, h2]; rfl
      show countType "Executed" (handleChange v r tc rE s).logs = _
      rw [hlogs, countType_executed_executed, countType_executed_raw]
    | false =>
      right
      obtain ⟨w1, w2, _, w4, _, _, _, _, due2, w9⟩ := debounced_waits tc _ hs
      have hst : handleChange v r tc rE s
          = { addLog "Raw Input" r { s with inputText := v } with
              throttledHandler := (debounced tc s.throttledHandler).1 } := by
        rw [hc, w1]; rfl
      have hst2 : step s (Action.input v r tc rE)
          = { addLog "Raw Input" r { s with inputText := v } with
              throttledHandler := (debounced tc s.throttledHandler).1 } := hst
      rw [hst2] at hwf2 ⊢
      refine ⟨countType_executed_raw r s.logs, hmode, hdelay, hwf2, w2, ?_, due2, w9⟩
      exact w4.trans hinv
  | throttleTimer t rE =>
    by_cases hd : due ≤ t
    · cases hs : shouldInvoke t s.throttledHandler with
      | true =>
        left
        have hexp : (timerExpired t s.throttledHandler).2 = true := by
          simp [timerExpired, hs, trailingEdge, hargs, htr, invokeFunc]
        have hlogs : (throttleTimerFires t rE s).logs = entry "Executed" rE :: s.logs := by
          simp only [throttleTimerFires, hdue, hd, if_true, hexp]
          rfl
        show countType "Executed" (throttleTimerFires t rE s).logs = _
        rw [hlogs, countType_executed_executed]
      | false =>
        right
        have hst : step s (Action.throttleTimer t rE)
            = { s with throttledHandler :=
                  { s.throttledHandler with
                    timerId := some (setTimeout t (remainingWait t s.throttledHandler)) } } := by
          show throttleTimerFires t rE s = _
          simp [throttleTimerFires, hdue, hd, timerExpired, hs]
        rw [hst] at hwf2 ⊢
        exact ⟨rfl, hmode, hdelay, hwf2, hargs, hinv, _, rfl⟩
    · right
      have hst : step s (Action.throttleTimer t rE) = s := by
        show throttleTimerFires t rE s = _
        simp [throttleTimerFires, hdue, hd]
      rw [hst] at hwf2 ⊢
      exact ⟨rfl, hmode, hdelay, hwf2, hargs, hinv, due, hdue⟩
  | debounceTimer t rE =>
    right
    have hidle : s.debouncedHandler.timerId = Option.none :=
      hdeb (by rw [hmode]; decide)
    have hst : step s (Action.debounceTimer t rE) = s :=
      debounceTimerFires_idle t rE s hidle
    rw [hst] at hwf2 ⊢
    exact ⟨rfl, hmode, hdelay, hwf2, hargs, hinv, due, hdue⟩
  | selectMode m => simp [Action.isInputOrTimer] at ha
  | slideDelay d => simp [Action.isInputOrTimer] at ha
  | reset => simp [Action.isInputOrTimer] at ha

/-- A queued call stays queued through every run of keystrokes and timer
callbacks that adds no `Executed` record. -/
theorem queued_run (d : Nat) (L : Int) (tr : List Action) (s : State) (hq : Queued d L s)
    (htr : ∀ a ∈ tr, a.isInputOrTimer = true)
    (hcount : countType "Executed" (run s tr).logs = countType "Executed" s.logs) :
    Queued d L (run s tr) := by
  induction tr generalizing s with
  | nil => exact hq
  | cons a as ih =>
    have ha := htr a (List.mem_cons_self a as)
    have has : ∀ b ∈ as, b.isInputOrTimer = true :=
      fun b hb => htr b (List.mem_cons_of_mem a hb)
    rw [run_cons] at hcount ⊢
    have hle := run_countExecuted_le as (step s a) has
    rcases queued_step d L s a hq ha with h | ⟨h, hq2⟩
    · omega
    · exact ih (step s a) hq2 has (by omega)

/-- The timer of a queued call, running `delay` or more after the last
invocation, adds one `Executed` record. -/
theorem queued_timer (d : Nat) (L : Int) (s : State) (hq : Queued d L s) (due T : Int)
    (rE : Reading) (hdue : s.throttledHandler.timerId = some due) (h1 : due ≤ T)
    (h2 : L + (d : Int) ≤ T) :
    (throttleTimerFires T rE s).logs = entry "Executed" rE :: s.logs := by
  obtain ⟨_, hdelay, hwf, hargs, hinv, _⟩ := hq
  obtain ⟨_, ⟨_, _, hm, hmw, htr⟩, _, _⟩ := hwf
  have hs : shouldInvoke T s.throttledHandler = true := by
    unfold shouldInvoke
    cases hlc : s.throttledHandler.lastCallTime with
    | none => rfl
    | some c =>
      have : (d : Int) ≤ T - s.throttledHandler.lastInvokeTime := by omega
      simp [hm, hmw, hdelay, this]
  have hexp : (timerExpired T s.throttledHandler).2 = true := by
    simp [timerExpired, hs, trailingEdge, hargs, htr, invokeFunc]
  simp only [throttleTimerFires, hdue, h1, if_true, hexp]
  rfl

end Playground

namespace Playground

/-- C2 as stated fails, in two ways, with delay 500 in mode `throttle`.
A keystroke at `t = 0` is executed at once and a second keystroke at `t = 100`,
inside the cooldown, adds no `Executed` record at that moment; but the
wrapper's timer running at `t = 500` then adds an `Executed` record, which it
does not add without the second keystroke: the call was queued for the
trailing edge, not dropped.  And a third keystroke at `t = 600`, only 100 ms
after that trailing execution and so inside the cooldown again, is executed
at once, because 500 ms have passed since the previous keystroke. -/
theorem throttle_cooldown_call_runs_later :
    throttle500.mode = Mode.throttle ∧ throttle500.delay = 500 ∧
    timeline (run throttle500 [keyAt 0, keyAt 100])
      = [("Raw Input", 100), ("Executed", 0), ("Raw Input", 0)] ∧
    timeline (run throttle500 [keyAt 0, keyAt 100, Action.throttleTimer 500 (at_ 500)])
      = [("Executed", 500), ("Raw Input", 100), ("Executed", 0), ("Raw Input", 0)] ∧
    timeline (run throttle500 [keyAt 0, Action.throttleTimer 500 (at_ 500)])
      = [("Executed", 0), ("Raw Input", 0)] ∧
    timeline (run throttle500 [keyAt 0, keyAt 100, Action.throttleTimer 500 (at_ 500),
        keyAt 600])
      = [("Executed", 600), ("Raw Input", 600), ("Executed", 500), ("Raw Input", 100),
         ("Executed", 0), ("Raw Input", 0)] := by
  decide

/-- C2, amended: in mode `throttle`, in every state the component reaches
(`WellFormed`), a keystroke whose wrapper call reads the clock at `tCall`, not
earlier than the previous call, does one of two things.
* It adds an `Executed` record at once, directly above its `Raw Input` record,
  when it is the wrapper's first call, when `delay` or more have passed since
  the last invocation (after the cooldown), and also inside the cooldown when
  `delay` or more have passed since the previous call.
* In every other case (inside the cooldown, less than `delay` after the
  previous call) it adds only its `Raw Input` record and is queued, not
  dropped: after every further run of keystrokes and timer callbacks that
  adds no `Executed` record the wrapper's timer is still pending, and its
  callback, running `delay` or more after the last invocation, adds one
  `Executed` record. -/
theorem throttle_leading_and_trailing (s : State) (val : String) (r : Reading)
    (tCall : Int) (rExec : Reading)
    (hmode : s.mode = Mode.throttle) (hwf : WellFormed s) :
    (s.throttledHandler.lastCallTime = Option.none →
      (handleChange val r tCall rExec s).logs
        = entry "Executed" rExec :: entry "Raw Input" r :: s.logs) ∧
    (s.throttledHandler.lastInvokeTime + s.delay ≤ tCall →
      (handleChange val r tCall rExec s).logs
        = entry "Executed" rExec :: entry "Raw Input" r :: s.logs) ∧
    (∀ c, s.throttledHandler.lastCallTime = some c → c + s.delay ≤ tCall →
      (handleChange val r tCall rExec s).logs
        = entry "Executed" rExec :: entry "Raw Input" r :: s.logs) ∧
    (∀ c, s.throttledHandler.lastCallTime = some c → c ≤ tCall → tCall < c + s.delay →
      tCall < s.throttledHandler.lastInvokeTime + s.delay →
      (handleChange val r tCall rExec s).logs = entry "Raw Input" r :: s.logs ∧
      ∀ tr : List Action, (∀ a ∈ tr, a.isInputOrTimer = true) →
        countType "Executed" (run (handleChange val r tCall rExec s) tr).logs
          = countType "Executed" (handleChange val r tCall rExec s).logs →
        ∃ due, (run (handleChange val r tCall rExec s) tr).throttledHandler.timerId
            = some due ∧
          ∀ (T : Int) (rE : Reading), due ≤ T →
            s.throttledHandler.lastInvokeTime + s.delay ≤ T →
            (throttleTimerFires T rE (run (handleChange val r tCall rExec s) tr)).logs
              = entry "Executed" rE :: (run (handleChange val r tCall rExec s) tr).logs) := by
  have hc := handleChange_throttle s val r tCall rExec hmode
  have hwf2 : WellFormed (handleChange val r tCall rExec s) :=
    wellFormed_handleChange val r tCall rExec s hwf
  obtain ⟨_, ⟨hw, hl, hm, hmw, htr⟩, _, _⟩ := hwf
  have hcfg : IsThrottle s.throttledHandler s.delay := ⟨hw, hl, hm, hmw, htr⟩
  have himm : shouldInvoke tCall s.throttledHandler = true →
      (handleChange val r tCall rExec s).logs
        = entry "Executed" rExec :: entry "Raw Input" r :: s.logs := by
    intro hs
    rw [hc, debounced_throttle_invokes tCall _ _ hcfg hs]
    rfl
  refine ⟨?_, ?_, ?_, ?_⟩
  · intro hnone
    exact himm (by simp [shouldInvoke, hnone])
  · intro hle
    apply himm
    unfold shouldInvoke
    cases hlc : s.throttledHandler.lastCallTime with
    | none => rfl
    | some c =>
      have : (s.delay : Int) ≤ tCall - s.throttledHandler.lastInvokeTime := by omega
      simp [hm, hmw, this]
  · intro c hlc hcase
    apply himm
    unfold shouldInvoke
    have : (s.delay : Int) ≤ tCall - c := by omega
    simp [hlc, hw, this]
  · intro c hlc hc1 hc2 hc3
    have hs : shouldInvoke tCall s.throttledHandler = false := by
      unfold shouldInvoke
      have h1 : ¬ ((s.delay : Int) ≤ tCall - c) := by omega
      have h2 : ¬ (tCall - c < 0) := by omega
      have h3 : ¬ ((s.delay : Int) ≤ tCall - s.throttledHandler.lastInvokeTime) := by omega
      simp [hlc, hw, hm, hmw, h1, h2, h3]
    obtain ⟨w1, w2, _, w4, _, _, _, _, due0, w9⟩ := debounced_waits tCall _ hs
    have hst : handleChange val r tCall rExec s
        = { addLog "Raw Input" r { s with inputText := val } with
            throttledHandler := (debounced tCall s.throttledHandler).1 } := by
      rw [hc, w1]; rfl
    have hq : Queued s.delay s.throttledHandler.lastInvokeTime
        (handleChange val r tCall rExec s) := by
      rw [hst] at hwf2 ⊢
      exact ⟨hmode, rfl, hwf2, w2, w4, due0, w9⟩
    refine ⟨by rw [hst]; rfl, ?_⟩
    intro tr htr2 hcount
    have hq2 := queued_run _ _ tr _ hq htr2 hcount
    obtain ⟨due, hdue⟩ := hq2.2.2.2.2.2
    exact ⟨due, hdue, fun T rE h1 h2 => queued_timer _ _ _ hq2 due T rE hdue h1 h2⟩

/-- C2, amended, at the wrapper of `throttle500` after a keystroke at `t = 0`:
a keystroke at `t = 100` is queued; it stays queued through any run of
keystrokes and timer callbacks that adds no `Executed` record, such as a
keystroke at `t = 200` and a timer callback that is not due at `t = 300`, and the
timer at `t = 500` then adds the `Executed` record.  When instead a keystroke
at `t = 520` comes before the timer, that keystroke is executed at once and
the timer at `t = 1020` adds nothing. -/
theorem throttle_leading_and_trailing_witness :
    ((run throttle500 [keyAt 0]).mode = Mode.throttle ∧
      WellFormed (run throttle500 [keyAt 0])) ∧
    ((handleChange "xy" (at_ 100) 100 (at_ 100) (run throttle500 [keyAt 0])).logs
        = entry "Raw Input" (at_ 100) :: (run throttle500 [keyAt 0]).logs ∧
      ∀ tr : List Action, (∀ a ∈ tr, a.isInputOrTimer = true) →
        countType "Executed"
            (run (handleChange "xy" (at_ 100) 100 (at_ 100) (run throttle500 [keyAt 0])) tr).logs
          = countType "Executed"
              (handleChange "xy" (at_ 100) 100 (at_ 100) (run throttle500 [keyAt 0])).logs →
        ∃ due, (run (handleChange "xy" (at_ 100) 100 (at_ 100) (run throttle500 [keyAt 0]))
            tr).throttledHandler.timerId = some due ∧
          ∀ (T : Int) (rE : Reading), due ≤ T →
            (run throttle500 [keyAt 0]).throttledHandler.lastInvokeTime
              + (run throttle500 [keyAt 0]).delay ≤ T →
            (throttleTimerFires T rE (run (handleChange "xy" (at_ 100) 100 (at_ 100)
                (run throttle500 [keyAt 0])) tr)).logs
              = entry "Executed" rE
                  :: (run (handleChange "xy" (at_ 100) 100 (at_ 100)
                      (run throttle500 [keyAt 0])) tr).logs) ∧
    timeline (run throttle500 [keyAt 0, keyAt 100, keyAt 200,
        Action.throttleTimer 300 (at_ 300), Action.throttleTimer 500 (at_ 500)])
      = [("Executed", 500), ("Raw Input", 200), ("Raw Input", 100), ("Executed", 0),
         ("Raw Input", 0)] ∧
    timeline (run throttle500 [keyAt 0, keyAt 100, keyAt 520,
        Action.throttleTimer 1020 (at_ 1020)])
      = [("Executed", 520), ("Raw Input", 520), ("Raw Input", 100), ("Executed", 0),
         ("Raw Input", 0)] :=
  ⟨⟨by decide, wellFormed_run [keyAt 0] throttle500
      (wellFormed_run [Action.slideDelay 500, Action.selectMode Mode.throttle] init
        wellFormed_init)⟩,
    (throttle_leading_and_trailing (run throttle500 [keyAt 0]) "xy" (at_ 100) 100 (at_ 100)
      (by decide)
      (wellFormed_run [keyAt 0] throttle500
        (wellFormed_run [Action.slideDelay 500, Action.selectMode Mode.throttle] init
          wellFormed_init))).2.2.2 0 (by decide) (by decide) (by decide) (by decide),
    by decide, by decide⟩

end Playground
